import Mathlib

/-!
Shallow embedding of `src/server.cpp`: a single-threaded TCP server built on
an edge-triggered epoll reactor.  Kernel interactions (`accept`, `read`,
`epoll_wait`) are nondeterministic from the program's point of view, so each
drain routine is embedded as a function of a *script*: the sequence of
results the successive system calls return.  The routine's value is the
trace of observable effects it performs on that script: log lines, the NUL
stores into the stack chunk buffer, `close` calls, and `epoll_ctl`
registrations.  Textual data that the program only copies into log lines
(peer host and port from `getnameinfo`) is modelled by opaque numeric
tokens; payload bytes are `Nat`s.
-/

namespace Server

/-- Size of the stack chunk buffer `char buf[512]` in `read_input_data`. -/
def BUF_SIZE : Nat := 512

/-- `constexpr int MAX_EVENTS = 128` in `event_loop`: the capacity of the
events buffer handed to `epoll_wait`. -/
def MAX_EVENTS : Nat := 128

/-- `EXIT_FAILURE` as used by `main`. -/
def EXIT_FAILURE : Nat := 1

/-- One log line the server emits (stdout or stderr).  `incomingData`
carries the byte sequence the `std::string` insertion actually prints. -/
inductive LogEvent where
  | acceptedConn (host port fd : Nat)
  | incomingData (fd : Nat) (content : List Nat)
  | closedConn (fd : Nat)
  | perrorRead
  | perrorAccept
  | perrorEpollCtl
deriving DecidableEq

/-- Result of one nonblocking `read` into `buf`, as `read_input_data` sees
it: a positive count with the bytes stored (`chunk`), zero (`eof`, orderly
peer shutdown), or `-1` with `errno` equal to `EAGAIN` (`errWouldBlock`) or
any other error (`errOther`). -/
inductive ReadResult where
  | chunk (bytes : List Nat)
  | eof
  | errWouldBlock
  | errOther
deriving DecidableEq

/-- What `std::string(buf)` yields after `read` stored `bytes` into `buf`
and the code executed `buf[count] = 0`: the bytes before the first NUL. -/
def cStringOf (bytes : List Nat) : List Nat := bytes.takeWhile (fun b => b != 0)

/-- Intermediate state of `read_input_data`: log lines emitted so far, the
index of every `buf[count] = 0` store performed (the index equals that
read's byte count, so a count of `BUF_SIZE` stores one byte past the
buffer), and the `connection_must_be_closed` flag. -/
structure ReadLoopOut where
  logs : List LogEvent
  nulWriteIdxs : List Nat
  mustClose : Bool
deriving DecidableEq

/-- The `while(true)` read loop of `read_input_data` (source lines 113-135)
run against a script of read results.  Per chunk the code stores a NUL at
`buf[count]` and logs `std::string(buf)` — the chunk truncated at its first
NUL byte.  The loop leaves only through one of its `break`s, so script
entries after the first terminal result are never consulted; an exhausted
script means observation stopped while the loop was still reading. -/
def readLoop (fd : Nat) : List ReadResult → ReadLoopOut
  | [] => ⟨[], [], false⟩
  | ReadResult.chunk bytes :: rest =>
      let o := readLoop fd rest
      ⟨LogEvent.incomingData fd (cStringOf bytes) :: o.logs,
       bytes.length :: o.nulWriteIdxs, o.mustClose⟩
  | ReadResult.eof :: _ => ⟨[], [], true⟩
  | ReadResult.errWouldBlock :: _ => ⟨[], [], false⟩
  | ReadResult.errOther :: _ => ⟨[LogEvent.perrorRead], [], true⟩

/-- Full outcome of one `read_input_data` invocation: log lines in emission
order, NUL-store indices, and the descriptors passed to `close`. -/
structure ReadDrainOut where
  logs : List LogEvent
  nulWriteIdxs : List Nat
  closes : List Nat
deriving DecidableEq

/-- `read_input_data` (source lines 110-144): run the read loop; when the
connection was marked for closure, log the closure line with the descriptor
and `close` it. -/
def read_input_data (fd : Nat) (script : List ReadResult) : ReadDrainOut :=
  let o := readLoop fd script
  if o.mustClose then ⟨o.logs ++ [LogEvent.closedConn fd], o.nulWriteIdxs, [fd]⟩
  else ⟨o.logs, o.nulWriteIdxs, []⟩

/-- Safety predicate for the chunk buffer: every NUL store of the drain
landed strictly inside the 512-byte buffer. -/
def nulWritesInBounds (r : ReadDrainOut) : Prop :=
  ∀ i ∈ r.nulWriteIdxs, i < BUF_SIZE

instance (r : ReadDrainOut) : Decidable (nulWritesInBounds r) :=
  inferInstanceAs (Decidable (∀ i ∈ r.nulWriteIdxs, i < BUF_SIZE))

/-- Kernel model for the exhaustion scenario: a connection whose receive
buffer holds `pending` bytes and whose peer keeps the connection open.
Each nonblocking read hands over the next `min BUF_SIZE remaining` bytes;
once the buffer is empty the read fails with `EAGAIN`. -/
def socketReads (pending : List Nat) : List ReadResult :=
  if h : pending = [] then [ReadResult.errWouldBlock]
  else ReadResult.chunk (pending.take BUF_SIZE) :: socketReads (pending.drop BUF_SIZE)
termination_by pending.length
decreasing_by
  simp only [List.length_drop]
  exact Nat.sub_lt (List.length_pos.mpr h) (by decide)

/-- The mask handed to `epoll_ctl(EPOLL_CTL_ADD, …)`: `EPOLLIN | EPOLLET`. -/
structure RegMask where
  epollin : Bool
  epollet : Bool
deriving DecidableEq

/-- One successful `accept` as the environment presents it to the acceptor
drain: the fresh descriptor, whether `getnameinfo` succeeds (with the peer
host/port tokens it yields), and whether the subsequent `epoll_ctl`
registration succeeds. -/
structure AcceptedConn where
  fd : Nat
  nameinfoOk : Bool
  host : Nat
  port : Nat
  registerOk : Bool
deriving DecidableEq

/-- Result of one `accept` call: a connection, or `-1` with `errno` equal
to `EAGAIN`/`EWOULDBLOCK`, or `-1` with any other error. -/
inductive AcceptResult where
  | conn (c : AcceptedConn)
  | errWouldBlock
  | errOther
deriving DecidableEq

/-- Outcome of one `accept_new_connections` invocation: log lines, the
descriptors set nonblocking via `fcntl`, the `epoll_ctl` ADD calls with
their mask, and whether the routine threw (`fatal = true` models the
uncaught `std::runtime_error` on registration failure, which propagates
through `event_loop` and `main` and terminates the process). -/
structure AcceptOut where
  logs : List LogEvent
  nonBlockingSet : List Nat
  registerCalls : List (Nat × RegMask)
  fatal : Bool
deriving DecidableEq

/-- `accept_new_connections` (source lines 59-108) run against a script of
accept results.  Per accepted connection: `setsockopt(SO_REUSEPORT)` (no
observable of interest), `getnameinfo` with the accepted-connection log on
success, `fcntl` to nonblocking, then `epoll_ctl` ADD with
`EPOLLIN | EPOLLET`; a failed registration logs `perror` and throws.  Accept
failure breaks the loop: silently for would-block, after a `perror` log
otherwise.  Entries after the first terminal are never consulted. -/
def accept_new_connections : List AcceptResult → AcceptOut
  | [] => ⟨[], [], [], false⟩
  | AcceptResult.errWouldBlock :: _ => ⟨[], [], [], false⟩
  | AcceptResult.errOther :: _ => ⟨[LogEvent.perrorAccept], [], [], false⟩
  | AcceptResult.conn c :: rest =>
      let hdr := if c.nameinfoOk then [LogEvent.acceptedConn c.host c.port c.fd] else []
      if c.registerOk then
        let o := accept_new_connections rest
        ⟨hdr ++ o.logs, c.fd :: o.nonBlockingSet,
         (c.fd, RegMask.mk true true) :: o.registerCalls, o.fatal⟩
      else
        ⟨hdr ++ [LogEvent.perrorEpollCtl], [c.fd], [(c.fd, RegMask.mk true true)], true⟩

/-- The log lines a run of successful accepts produces: one
accepted-connection line per connection whose `getnameinfo` succeeded. -/
def acceptLogs (conns : List AcceptedConn) : List LogEvent :=
  (conns.map fun c =>
    if c.nameinfoOk then [LogEvent.acceptedConn c.host c.port c.fd] else []).flatten

/-- One `epoll_event` as the loop body inspects it: the descriptor in
`event.data.fd` and the mask bits the code tests. -/
structure EpollEvent where
  fd : Nat
  err : Bool
  hup : Bool
  readable : Bool
deriving DecidableEq

/-- One observable step of the event-loop body. -/
inductive Action where
  | logEpollError
  | closeFd (fd : Nat)
  | acceptDrain
  | readDrain (fd : Nat)
deriving DecidableEq

/-- Dispatch of a single readiness event (source lines 157-173): an event
flagged error/hangup or lacking readable is logged and its descriptor
closed, the listening descriptor triggers the acceptor drain, and any other
descriptor triggers the reader drain. -/
def handle_event (serverFd : Nat) (e : EpollEvent) : List Action :=
  if e.err || e.hup || !e.readable then
    [Action.logEpollError, Action.closeFd e.fd]
  else if serverFd == e.fd then
    [Action.acceptDrain]
  else
    [Action.readDrain e.fd]

/-- The `for` loop over one batch returned by `epoll_wait` (source lines
154-174), visiting the events in buffer order. -/
def event_loop_pass (serverFd : Nat) : List EpollEvent → List Action
  | [] => []
  | e :: rest =>
      if e.err || e.hup || !e.readable then
        Action.logEpollError :: Action.closeFd e.fd :: event_loop_pass serverFd rest
      else if serverFd == e.fd then
        Action.acceptDrain :: event_loop_pass serverFd rest
      else
        Action.readDrain e.fd :: event_loop_pass serverFd rest

/-- One `epoll_wait` call on the kernel's queue of pending readiness
events: at most `MAX_EVENTS` are returned, in order; the rest stay queued
for subsequent calls. -/
def epoll_wait_model (queue : List EpollEvent) : List EpollEvent × List EpollEvent :=
  (queue.take MAX_EVENTS, queue.drop MAX_EVENTS)

/-- One iteration of the `while(true)` loop in `event_loop` (source lines
151-175): `epoll_wait` returned `count` (`-1` on error) with the batch at
the front of `buffer`; the `for` loop visits indices `0 ≤ i < count`, so an
error count visits no event and the outer loop simply waits again. -/
def event_loop_iteration (serverFd : Nat) (count : Int)
    (buffer : List EpollEvent) : List Action :=
  event_loop_pass serverFd (buffer.take count.toNat)

/-- One step of `main` (source lines 179-221), in execution order. -/
inductive MainStep where
  | usageMessage
  | exitWith (code : Nat)
  | createServerSocket
  | listenStep
  | epollCreate
  | registerListening
  | runReactor
deriving DecidableEq

/-- `main`: with `argc ≠ 2` the usage line goes to stderr and the process
exits with `EXIT_FAILURE` before any socket exists; otherwise the setup
steps run in order and the reactor is entered (each setup step may still
abort by exception, which this trace does not subdivide further — the
claims only concern the argument check). -/
def main_model (argc : Nat) : List MainStep :=
  if argc ≠ 2 then [MainStep.usageMessage, MainStep.exitWith EXIT_FAILURE]
  else [MainStep.createServerSocket, MainStep.listenStep, MainStep.epollCreate,
        MainStep.registerListening, MainStep.runReactor]

/-- A run of successful chunk reads prepends one data log line and one NUL
store per chunk to whatever the rest of the script produces. -/
theorem readLoop_append_chunks (fd : Nat) (chunks : List (List Nat))
    (tail : List ReadResult) :
    readLoop fd (chunks.map ReadResult.chunk ++ tail) =
      ⟨(chunks.map fun b => LogEvent.incomingData fd (cStringOf b))
          ++ (readLoop fd tail).logs,
       chunks.map List.length ++ (readLoop fd tail).nulWriteIdxs,
       (readLoop fd tail).mustClose⟩ := by
  induction chunks with
  | nil => simp
  | cons b bs ih => simp [readLoop, ih]

/-- The chunk data log lines never contain a closure line. -/
theorem count_closedConn_chunkLogs (fd g : Nat) (chunks : List (List Nat)) :
    (chunks.map fun b => LogEvent.incomingData fd (cStringOf b)).count
      (LogEvent.closedConn g) = 0 := by
  rw [List.count_eq_zero]
  intro hmem
  obtain ⟨b, _, hb⟩ := List.mem_map.mp hmem
  exact LogEvent.noConfusion hb

/-- C4: in every invocation of the read drain, after any run of successful
chunk reads — a read returning 0 marks the connection for closure and stops
the loop (script entries past it are never consulted); a would-block
failure stops the loop with the connection left open and nothing closed; any
other read failure logs a diagnostic, marks for closure and stops; and
whenever closure was marked, exactly the one descriptor is closed and
exactly one closure line naming it is logged. -/
theorem read_drain_termination_cases (fd : Nat) (chunks : List (List Nat))
    (junk : List ReadResult) :
    (read_input_data fd (chunks.map ReadResult.chunk ++ ReadResult.eof :: junk) =
       ⟨(chunks.map fun b => LogEvent.incomingData fd (cStringOf b))
           ++ [LogEvent.closedConn fd],
        chunks.map List.length, [fd]⟩)
    ∧ (read_input_data fd
         (chunks.map ReadResult.chunk ++ ReadResult.errWouldBlock :: junk) =
       ⟨chunks.map fun b => LogEvent.incomingData fd (cStringOf b),
        chunks.map List.length, []⟩)
    ∧ (read_input_data fd
         (chunks.map ReadResult.chunk ++ ReadResult.errOther :: junk) =
       ⟨(chunks.map fun b => LogEvent.incomingData fd (cStringOf b))
           ++ [LogEvent.perrorRead, LogEvent.closedConn fd],
        chunks.map List.length, [fd]⟩)
    ∧ ((read_input_data fd
          (chunks.map ReadResult.chunk ++ ReadResult.eof :: junk)).logs.count
         (LogEvent.closedConn fd) = 1)
    ∧ ((read_input_data fd
          (chunks.map ReadResult.chunk ++ ReadResult.errOther :: junk)).logs.count
         (LogEvent.closedConn fd) = 1)
    ∧ ((read_input_data fd
          (chunks.map ReadResult.chunk ++ ReadResult.errWouldBlock :: junk)).logs.count
         (LogEvent.closedConn fd) = 0) := by
  have he := readLoop_append_chunks fd chunks (ReadResult.eof :: junk)
  have hw := readLoop_append_chunks fd chunks (ReadResult.errWouldBlock :: junk)
  have ho := readLoop_append_chunks fd chunks (ReadResult.errOther :: junk)
  have hc := count_closedConn_chunkLogs fd fd chunks
  refine ⟨?_, ?_, ?_, ?_, ?_, ?_⟩ <;>
    simp [read_input_data, he, hw, ho, readLoop, List.count_append, hc]

set_option maxRecDepth 8192 in
/-- C1: refuted on the code — a chunk read that fills the 512-byte buffer
exactly makes the drain store a NUL at `buf[512]`, one byte past the
buffer, so the pass does write beyond the allocated size; and the chunk is
logged through NUL-terminated string semantics rather than by its precise
byte length, as a 3-byte chunk with an embedded NUL being logged as a
single byte shows. -/
theorem full_buffer_read_writes_past_end :
    ¬ nulWritesInBounds
        (read_input_data 7
          [ReadResult.chunk (List.replicate BUF_SIZE 65), ReadResult.errWouldBlock])
    ∧ (read_input_data 7
         [ReadResult.chunk (List.replicate BUF_SIZE 65),
          ReadResult.errWouldBlock]).nulWriteIdxs = [BUF_SIZE]
    ∧ (read_input_data 9
         [ReadResult.chunk [65, 0, 66], ReadResult.errWouldBlock]).logs =
        [LogEvent.incomingData 9 [65]] := by
  refine ⟨?_, by decide, by decide⟩
  intro hin
  exact absurd (hin BUF_SIZE (by decide)) (by decide)

/-- C3: a connection whose receive buffer holds exactly 1500 bytes at
wakeup gives, in one invocation of the read drain, exactly three chunk
reads of 512, 512 and 476 bytes in that order (the recorded NUL-store index
equals each read's byte count), three data log lines in the same order, and
no close: the loop stops only at the final would-block, with no further
wakeup between chunks. -/
theorem read_drain_1500_bytes (fd : Nat) (p : List Nat) (h : p.length = 1500) :
    read_input_data fd (socketReads p) =
      ⟨[LogEvent.incomingData fd (cStringOf (p.take BUF_SIZE)),
        LogEvent.incomingData fd (cStringOf ((p.drop BUF_SIZE).take BUF_SIZE)),
        LogEvent.incomingData fd
          (cStringOf (((p.drop BUF_SIZE).drop BUF_SIZE).take BUF_SIZE))],
       [512, 512, 476], []⟩ := by
  have h0 : p ≠ [] := by intro hn; rw [hn] at h; simp at h
  have l1 : (p.drop BUF_SIZE).length = 988 := by
    rw [List.length_drop, h]; decide
  have h1 : p.drop BUF_SIZE ≠ [] := by intro hn; rw [hn] at l1; simp at l1
  have l2 : ((p.drop BUF_SIZE).drop BUF_SIZE).length = 476 := by
    rw [List.length_drop, l1]; decide
  have h2 : (p.drop BUF_SIZE).drop BUF_SIZE ≠ [] := by
    intro hn; rw [hn] at l2; simp at l2
  have l3 : ((p.drop BUF_SIZE).drop BUF_SIZE).drop BUF_SIZE = [] := by
    apply List.eq_nil_of_length_eq_zero
    rw [List.length_drop, l2]; decide
  have c1 : (p.take BUF_SIZE).length = 512 := by
    rw [List.length_take, h]; decide
  have c2 : ((p.drop BUF_SIZE).take BUF_SIZE).length = 512 := by
    rw [List.length_take, l1]; decide
  have c3 : (((p.drop BUF_SIZE).drop BUF_SIZE).take BUF_SIZE).length = 476 := by
    rw [List.length_take, l2]; decide
  have e : socketReads p =
      [ReadResult.chunk (p.take BUF_SIZE),
       ReadResult.chunk ((p.drop BUF_SIZE).take BUF_SIZE),
       ReadResult.chunk (((p.drop BUF_SIZE).drop BUF_SIZE).take BUF_SIZE),
       ReadResult.errWouldBlock] := by
    rw [socketReads.eq_def, dif_neg h0]
    rw [socketReads.eq_def, dif_neg h1]
    rw [socketReads.eq_def, dif_neg h2]
    rw [l3, socketReads.eq_def]
    simp
  rw [e]
  simp [read_input_data, readLoop, c1, c2, c3, h, BUF_SIZE]

/-- C3 witness: the theorem instantiated at descriptor 7 and 1500 bytes of
payload value 1. -/
theorem read_drain_1500_bytes_witness :
    read_input_data 7 (socketReads (List.replicate 1500 1)) =
      ⟨[LogEvent.incomingData 7 (cStringOf ((List.replicate 1500 1).take BUF_SIZE)),
        LogEvent.incomingData 7
          (cStringOf (((List.replicate 1500 1).drop BUF_SIZE).take BUF_SIZE)),
        LogEvent.incomingData 7
          (cStringOf ((((List.replicate 1500 1).drop BUF_SIZE).drop BUF_SIZE).take
            BUF_SIZE))],
       [512, 512, 476], []⟩ :=
  read_drain_1500_bytes 7 (List.replicate 1500 1) (List.length_replicate 1500 1)

/-- A run of accepted connections whose registrations all succeed prepends,
per connection, its log line (when `getnameinfo` succeeded), its nonblocking
`fcntl`, and its `EPOLLIN | EPOLLET` registration to whatever the rest of
the script produces. -/
theorem accept_append_conns (conns : List AcceptedConn) (tail : List AcceptResult)
    (hreg : ∀ c ∈ conns, c.registerOk = true) :
    accept_new_connections (conns.map AcceptResult.conn ++ tail) =
      ⟨acceptLogs conns ++ (accept_new_connections tail).logs,
       conns.map AcceptedConn.fd ++ (accept_new_connections tail).nonBlockingSet,
       (conns.map fun c => (c.fd, RegMask.mk true true))
           ++ (accept_new_connections tail).registerCalls,
       (accept_new_connections tail).fatal⟩ := by
  induction conns with
  | nil => simp [acceptLogs]
  | cons c cs ih =>
    have hc : c.registerOk = true := hreg c (by simp)
    have ihh := ih fun x hx => hreg x (by simp [hx])
    simp [accept_new_connections, hc, ihh, acceptLogs]

/-- C5: the acceptor drain accepts the pending connections in order, and
for each success sets the new descriptor nonblocking and registers it with
the readiness facility for readable (`epollin`) edge-triggered (`epollet`)
notification; a final would-block from `accept` ends the pass normally
(nothing further of the script is consulted), while any other `accept`
failure logs the diagnostic and ends the pass without aborting (`fatal`
stays `false`). -/
theorem accept_drain_cases (conns : List AcceptedConn) (junk : List AcceptResult)
    (hreg : ∀ c ∈ conns, c.registerOk = true) :
    (accept_new_connections
        (conns.map AcceptResult.conn ++ AcceptResult.errWouldBlock :: junk) =
      ⟨acceptLogs conns, conns.map AcceptedConn.fd,
       conns.map fun c => (c.fd, RegMask.mk true true), false⟩)
    ∧ (accept_new_connections
        (conns.map AcceptResult.conn ++ AcceptResult.errOther :: junk) =
      ⟨acceptLogs conns ++ [LogEvent.perrorAccept], conns.map AcceptedConn.fd,
       conns.map fun c => (c.fd, RegMask.mk true true), false⟩) := by
  have h1 := accept_append_conns conns (AcceptResult.errWouldBlock :: junk) hreg
  have h2 := accept_append_conns conns (AcceptResult.errOther :: junk) hreg
  refine ⟨?_, ?_⟩ <;> simp [h1, h2, accept_new_connections]

/-- C5 witness: one accepted connection (descriptor 4, peer tokens 1 and 2,
successful registration) followed by a would-block `accept`. -/
theorem accept_drain_cases_witness :
    accept_new_connections
        [AcceptResult.conn (AcceptedConn.mk 4 true 1 2 true),
         AcceptResult.errWouldBlock] =
      ⟨[LogEvent.acceptedConn 1 2 4], [4], [(4, RegMask.mk true true)], false⟩ :=
  (accept_drain_cases [AcceptedConn.mk 4 true 1 2 true] [] (by decide)).1

/-- C9: when `getnameinfo` fails for an accepted connection the acceptor
still sets the descriptor nonblocking and still issues the same
`EPOLLIN | EPOLLET` registration, the rest of the drain is unchanged, and
the only difference from the `getnameinfo`-success run is the missing
accepted-connection log line. -/
theorem nameinfo_failure_only_skips_log (fd hostTok portTok : Nat) (rok : Bool)
    (rest : List AcceptResult) :
    ((accept_new_connections
        (AcceptResult.conn (AcceptedConn.mk fd true hostTok portTok rok) :: rest)).logs =
      LogEvent.acceptedConn hostTok portTok fd ::
        (accept_new_connections
          (AcceptResult.conn (AcceptedConn.mk fd false hostTok portTok rok) :: rest)).logs)
    ∧ ((accept_new_connections
        (AcceptResult.conn (AcceptedConn.mk fd false hostTok portTok rok) :: rest)).nonBlockingSet =
      (accept_new_connections
        (AcceptResult.conn (AcceptedConn.mk fd true hostTok portTok rok) :: rest)).nonBlockingSet)
    ∧ ((accept_new_connections
        (AcceptResult.conn (AcceptedConn.mk fd false hostTok portTok rok) :: rest)).registerCalls =
      (accept_new_connections
        (AcceptResult.conn (AcceptedConn.mk fd true hostTok portTok rok) :: rest)).registerCalls)
    ∧ ((accept_new_connections
        (AcceptResult.conn (AcceptedConn.mk fd false hostTok portTok rok) :: rest)).fatal =
      (accept_new_connections
        (AcceptResult.conn (AcceptedConn.mk fd true hostTok portTok rok) :: rest)).fatal)
    ∧ fd ∈ (accept_new_connections
        (AcceptResult.conn (AcceptedConn.mk fd false hostTok portTok rok) :: rest)).nonBlockingSet
    ∧ (fd, RegMask.mk true true) ∈ (accept_new_connections
        (AcceptResult.conn (AcceptedConn.mk fd false hostTok portTok rok) :: rest)).registerCalls := by
  cases rok <;> simp [accept_new_connections]

/-- The for loop over a batch is the concatenation, in batch order, of the
per-event dispatch traces. -/
theorem event_loop_pass_eq_flatten (sfd : Nat) (events : List EpollEvent) :
    event_loop_pass sfd events = (events.map (handle_event sfd)).flatten := by
  induction events with
  | nil => simp [event_loop_pass]
  | cons e rest ih =>
    by_cases hbad : (e.err || e.hup || !e.readable) = true
    · simp [event_loop_pass, handle_event, hbad, ih]
    · by_cases hsrv : (sfd == e.fd) = true
      · simp [event_loop_pass, handle_event, hbad, hsrv, ih]
      · simp [event_loop_pass, handle_event, hbad, hsrv, ih]

/-- C2 counterexample: when registering a newly accepted descriptor fails,
the acceptor drain is not isolated to that descriptor — the thrown
exception propagates (`fatal = true`), uncaught through `event_loop` and
`main`, terminating the reactor process. -/
theorem register_failure_is_fatal :
    (accept_new_connections
        [AcceptResult.conn (AcceptedConn.mk 5 true 1 1 false)]).fatal = true
      ∧ (accept_new_connections
          [AcceptResult.conn (AcceptedConn.mk 5 true 1 1 false)]).logs =
        [LogEvent.acceptedConn 1 1 5, LogEvent.perrorEpollCtl] := by
  refine ⟨by decide, by decide⟩

/-- C2 (amended): accept errors other than would-block, read errors other
than would-block, and error/hangup readiness events are each isolated —
logged, the affected descriptor closed where one exists, and the event loop
continues with the remaining events; but a failed registration of a newly
accepted descriptor throws, which terminates the reactor. -/
theorem steady_state_failure_isolation (junk : List AcceptResult) (fd : Nat)
    (chunks : List (List Nat)) (jr : List ReadResult) (sfd : Nat)
    (e : EpollEvent) (rest : List EpollEvent) (c : AcceptedConn)
    (tail : List AcceptResult) :
    (accept_new_connections (AcceptResult.errOther :: junk) =
      ⟨[LogEvent.perrorAccept], [], [], false⟩)
    ∧ ((read_input_data fd
          (chunks.map ReadResult.chunk ++ ReadResult.errOther :: jr)).closes = [fd]
        ∧ LogEvent.perrorRead ∈ (read_input_data fd
            (chunks.map ReadResult.chunk ++ ReadResult.errOther :: jr)).logs)
    ∧ ((e.err || e.hup || !e.readable) = true →
        event_loop_pass sfd (e :: rest) =
          Action.logEpollError :: Action.closeFd e.fd :: event_loop_pass sfd rest)
    ∧ (c.registerOk = false →
        (accept_new_connections (AcceptResult.conn c :: tail)).fatal = true) := by
  have hl := readLoop_append_chunks fd chunks (ReadResult.errOther :: jr)
  refine ⟨rfl, ⟨?_, ?_⟩, ?_, ?_⟩
  · simp [read_input_data, hl, readLoop]
  · simp [read_input_data, hl, readLoop]
  · intro hbad
    simp only [event_loop_pass, hbad]
    simp
  · intro hr
    cases hni : c.nameinfoOk <;> simp [accept_new_connections, hr, hni]

/-- C6 counterexample: an error-flagged readiness event carrying the
listening descriptor (here 3) makes the event loop close the listening
socket and then keep running — it goes on to serve the next event of the
same batch (a read on descriptor 7). -/
theorem listening_socket_closed_by_event :
    event_loop_pass 3
        [EpollEvent.mk 3 true false false, EpollEvent.mk 7 false false true] =
      [Action.logEpollError, Action.closeFd 3, Action.readDrain 7] := by
  decide

/-- C6 (amended): neither drain routine ever closes the listening socket —
the read drain closes at most the connection descriptor it was invoked on,
and the loop never dispatches a read drain on the listening descriptor —
but a readiness event for the listening descriptor flagged error/hangup or
lacking readable does make the event loop close it and continue running,
and such events are the only way a pass closes it. -/
theorem listening_socket_close_characterization (sfd : Nat)
    (events : List EpollEvent) (fd : Nat) (script : List ReadResult) :
    (Action.closeFd sfd ∈ event_loop_pass sfd events ↔
      ∃ e ∈ events, e.fd = sfd ∧ (e.err || e.hup || !e.readable) = true)
    ∧ Action.readDrain sfd ∉ event_loop_pass sfd events
    ∧ ((read_input_data fd script).closes = []
        ∨ (read_input_data fd script).closes = [fd]) := by
  refine ⟨?_, ?_, ?_⟩
  · rw [event_loop_pass_eq_flatten, List.mem_flatten]
    constructor
    · rintro ⟨l, hl, hal⟩
      obtain ⟨x, hx, rfl⟩ := List.mem_map.mp hl
      refine ⟨x, hx, ?_⟩
      by_cases hbad : (x.err || x.hup || !x.readable) = true
      · simp [handle_event, hbad] at hal
        exact ⟨hal.symm, hbad⟩
      · by_cases hsrv : (sfd == x.fd) = true
        · simp [handle_event, hbad, hsrv] at hal
        · simp [handle_event, hbad, hsrv] at hal
    · rintro ⟨x, hx, hfd, hbad⟩
      refine ⟨handle_event sfd x, List.mem_map_of_mem (handle_event sfd) hx, ?_⟩
      simp [handle_event, hbad, hfd]
  · rw [event_loop_pass_eq_flatten, List.mem_flatten]
    rintro ⟨l, hl, hal⟩
    obtain ⟨x, hx, rfl⟩ := List.mem_map.mp hl
    by_cases hbad : (x.err || x.hup || !x.readable) = true
    · simp [handle_event, hbad] at hal
    · by_cases hsrv : (sfd == x.fd) = true
      · simp [handle_event, hbad, hsrv] at hal
      · simp [handle_event, hbad, hsrv] at hal
        exact hsrv (by simp [hal])
  · by_cases hmc : (readLoop fd script).mustClose
    · right; simp [read_input_data, hmc]
    · left; simp [read_input_data, hmc]

/-- C7: one batch of events is processed strictly in the order the facility
returned it — the pass is the concatenation, in batch order, of the
per-event traces with no reordering or prioritization — and each event is
handled by the dispatch rule: an error/hangup or non-readable mask closes
that descriptor and skips further handling of the event, the listening
descriptor triggers the acceptor drain, and any other descriptor triggers
the reader drain. -/
theorem batch_processed_in_order (sfd : Nat) (events : List EpollEvent) :
    event_loop_pass sfd events = (events.map (handle_event sfd)).flatten
    ∧ ∀ e : EpollEvent,
        ((e.err || e.hup || !e.readable) = true →
          handle_event sfd e = [Action.logEpollError, Action.closeFd e.fd])
        ∧ ((e.err || e.hup || !e.readable) = false → e.fd = sfd →
          handle_event sfd e = [Action.acceptDrain])
        ∧ ((e.err || e.hup || !e.readable) = false → e.fd ≠ sfd →
          handle_event sfd e = [Action.readDrain e.fd]) := by
  refine ⟨event_loop_pass_eq_flatten sfd events, fun e => ⟨?_, ?_, ?_⟩⟩
  · intro hbad; simp [handle_event, hbad]
  · intro hok hfd; simp [handle_event, hok, hfd]
  · intro hok hfd
    have : (sfd == e.fd) = false := by
      simp only [beq_eq_false_iff_ne, ne_eq]
      exact fun hh => hfd hh.symm
    simp [handle_event, hok, this]

/-- C8: `main` invoked with an argument count other than exactly one
positional argument (so `argc ≠ 2`: missing or extra arguments) prints the
usage message to stderr and exits with the nonzero status `EXIT_FAILURE`,
never creating the listening socket nor entering the reactor. -/
theorem bad_argc_usage_exit (argc : Nat) (h : argc ≠ 2) :
    main_model argc = [MainStep.usageMessage, MainStep.exitWith EXIT_FAILURE]
    ∧ EXIT_FAILURE ≠ 0
    ∧ MainStep.createServerSocket ∉ main_model argc
    ∧ MainStep.runReactor ∉ main_model argc := by
  refine ⟨by simp [main_model, h], by decide, ?_, ?_⟩ <;>
    simp [main_model, h]

/-- C8 witness: the theorem at `argc = 1`, a missing port argument. -/
theorem bad_argc_usage_exit_witness :
    main_model 1 = [MainStep.usageMessage, MainStep.exitWith EXIT_FAILURE]
    ∧ EXIT_FAILURE ≠ 0
    ∧ MainStep.createServerSocket ∉ main_model 1
    ∧ MainStep.runReactor ∉ main_model 1 :=
  bad_argc_usage_exit 1 (by decide)

/-- C10: each wait call asks for at most `MAX_EVENTS = 128` events, so one
loop iteration processes at most 128 of them; the kernel events beyond that
bound are exactly the remainder of the queue, left for subsequent wait
calls in order; a returned batch is processed in full by the iteration; and
a wait call returning an error count (`-1`) processes zero events — no
action at all — after which the loop silently waits again. -/
theorem wait_batch_bounded (sfd : Nat) (queue buffer : List EpollEvent) :
    (epoll_wait_model queue).1.length ≤ MAX_EVENTS
    ∧ MAX_EVENTS = 128
    ∧ (epoll_wait_model queue).1 ++ (epoll_wait_model queue).2 = queue
    ∧ event_loop_iteration sfd (Int.ofNat (epoll_wait_model queue).1.length)
        (epoll_wait_model queue).1 = event_loop_pass sfd (queue.take MAX_EVENTS)
    ∧ event_loop_iteration sfd (-1) buffer = [] := by
  refine ⟨List.length_take_le MAX_EVENTS queue, rfl,
    List.take_append_drop MAX_EVENTS queue, ?_, ?_⟩
  · have hn : (Int.ofNat (List.take MAX_EVENTS queue).length).toNat =
        (List.take MAX_EVENTS queue).length := rfl
    unfold event_loop_iteration epoll_wait_model
    rw [hn, List.take_length]
  · simp [event_loop_iteration, event_loop_pass]

end Server
